import Mathlib

/-!
# Verification of the Orbit-Protocol treasury contract

Shallow embedding of `src/treasury/src/contract.rs` (a Soroban smart
contract).  Contract storage, token balances and the treasury's pool
position are modelled as one explicit state record; every public entry
point becomes a function `... → EnvState → Except Failure EnvState × List ExtCall`
returning either the post-state or the failure that aborted the call,
together with the ordered trace of external interactions the call
performed before finishing.  A Soroban contract invocation that panics
has all of its ledger effects rolled back by the host; `invoke` models
this transaction semantics.

External collaborators (the asset issuer token contract, the Blend pool,
the pegkeeper callback) are not part of this repository; they are
modelled from the spec where the treasury code depends on their
behaviour, each marked `Modelled from the spec:` in its doc comment.
Machine integers (`i128`) are modelled as unbounded `Int`; no arithmetic
in the contract approaches the `i128` range in any claim considered.
-/

namespace Orbit

/-- Soroban `Address`, abstracted to a countable identifier. -/
abbrev Address := Nat

/-- The treasury contract's own address (`e.current_contract_address()`),
a fixed distinguished identifier. -/
def treasuryAddr : Address := 0

/-- Modelled from the spec (source file `errors.rs` is not under `src/`):
the error taxonomy of §7 — `AlreadyInitialized`, `SupplyError`,
`FlashloanFailedError`; constructor names follow the usages in
`contract.rs`. -/
inductive TreasuryError where
  | AlreadyInitializedError
  | SupplyError
  | FlashloanFailedError
deriving DecidableEq, Repr

/-- How an invocation can abort: a `panic_with_error` with a contract
error, a failed `require_auth` host check, an `unwrap` of a missing map
entry, or a collaborator contract rejecting a negative token amount. -/
inductive Failure where
  | err (e : TreasuryError)
  | notAuthorized (a : Address)
  | mapUnwrapNone
  | negativeAmount
  | invalidRequest
deriving DecidableEq, Repr

/-- An argument value appearing in an authorization entry. -/
inductive Val where
  | addr (a : Address)
  | int (i : Int)
deriving DecidableEq, Repr

/-- A `Request` submitted to the pool (`dependencies/pool.rs`):
`request_type` 0 is supply, 1 is withdraw. -/
structure Request where
  request_type : Nat
  address : Address
  amount : Int
deriving DecidableEq, Repr

/-- One external interaction performed by a treasury entry point, in
program order; used to state where in a call an effect happens. -/
inductive ExtCall where
  | requireAuth (a : Address)
  | requireAuthForArgs (a : Address) (token : Address) (amount : Int)
  | grant (target : Address) (fn : String) (args : List Val)
  | mintCall (dst : Address) (amount : Int)
  | burnCall (src : Address) (amount : Int)
  | transferCall (src : Address) (dst : Address) (amount : Int)
  | poolSubmitCall (src : Address) (spender : Address) (dst : Address) (reqs : List Request)
  | getPositionsCall (owner : Address)
  | balanceCall (owner : Address)
  | callbackCall (token : Address) (caller : Address) (pool : Address)
      (amm : Address) (collateral : Address) (amount : Int) (fee : Int)
  | publish (data : Int × Int)
deriving DecidableEq, Repr

/-- Association-list lookup (models Soroban `Map.get`, which returns
`None` for a missing key). -/
def lookupA {κ α : Type} [DecidableEq κ] : List (κ × α) → κ → Option α
  | [], _ => none
  | (k, v) :: rest, q => if q = k then some v else lookupA rest q

/-- Association-list update: replaces the first binding of the key, or
appends a fresh binding. -/
def setA {κ α : Type} [DecidableEq κ] : List (κ × α) → κ → α → List (κ × α)
  | [], k, v => [(k, v)]
  | (k', v') :: rest, k, v =>
      if k = k' then (k, v) :: rest else (k', v') :: setA rest k v

/-- The treasury's world state: contract instance storage
(`storage.rs` is not under `src/`; its fields are modelled from the
spec's ConfigStore and SupplyLedger: admin, token, blend pool, soroswap,
collateral token, pegkeeper, loan fee, `tracked_supply`), plus the
modelled external ledgers — the asset token's balance map, the
treasury's supply-position map inside the pool, the pool's reserve index
for the asset, and the event log. -/
structure EnvState where
  initialized : Bool
  admin : Address
  token : Address
  blend : Address
  soroswap : Address
  collateralToken : Address
  pegkeeper : Address
  loanFee : Int
  tokenSupply : Int
  balances : List (Address × Int)
  poolSupply : List (Nat × Int)
  assetIndex : Nat
  events : List (Int × Int)
deriving DecidableEq, Repr

/-- Balance of `a` in the asset token's ledger (0 when no entry). -/
def balOf (s : EnvState) (a : Address) : Int := (lookupA s.balances a).getD 0

/-- The treasury's pool-reported supplied amount at reserve index `i`
(0 when no entry). -/
def posOf (s : EnvState) (i : Nat) : Int := (lookupA s.poolSupply i).getD 0

/-- The authorization context of one invocation: which addresses have
authorized the call (`require_auth`) and which have authorized it for
specific arguments (`require_auth_for_args` with `(token, amount)`). -/
structure AuthCtx where
  auth : Address → Bool
  authArgs : Address → Address → Int → Bool

/-- Modelled from the spec: the Asset Issuer collaborator's
`mint(to, amount)` — credits `amount` to `to`; a token contract rejects
a negative amount. -/
def tokenMint (s : EnvState) (dst : Address) (amount : Int) : Except Failure EnvState :=
  if amount < 0 then .error .negativeAmount
  else .ok { s with balances := setA s.balances dst (balOf s dst + amount) }

/-- Modelled from the spec: the Asset Issuer collaborator's
`burn(from, amount)` — debits `amount` from `src`; a token contract
rejects a negative amount. -/
def tokenBurn (s : EnvState) (src : Address) (amount : Int) : Except Failure EnvState :=
  if amount < 0 then .error .negativeAmount
  else .ok { s with balances := setA s.balances src (balOf s src - amount) }

/-- Modelled from the spec: a token `transfer(from, to, amount)` moves
`amount` between balances; rejects a negative amount. -/
def tokenTransfer (s : EnvState) (src : Address) (dst : Address) (amount : Int) :
    Except Failure EnvState :=
  if amount < 0 then .error .negativeAmount
  else
    let s1 := { s with balances := setA s.balances src (balOf s src - amount) }
    .ok { s1 with balances := setA s1.balances dst (balOf s1 dst + amount) }

/-- Modelled from the spec: the Pool collaborator's `submit` handling of
a single request.  Request type 0 (supply-collateral-style) transfers
`amount` from `src` to the pool and increases the treasury's supplied
position at the asset's reserve index by `amount`; request type 1
(withdraw) decreases the position and transfers `amount` from the pool
to `to`.  A lending pool rejects a negative request amount. -/
def poolSubmitOne (s : EnvState) (src : Address) (dst : Address) (r : Request) :
    Except Failure EnvState :=
  if r.amount < 0 then .error .negativeAmount
  else if r.request_type = 0 then
    match tokenTransfer s src s.blend r.amount with
    | .error f => .error f
    | .ok s1 =>
        .ok { s1 with poolSupply := setA s1.poolSupply s1.assetIndex (posOf s1 s1.assetIndex + r.amount) }
  else if r.request_type = 1 then
    match tokenTransfer s s.blend dst r.amount with
    | .error f => .error f
    | .ok s1 =>
        .ok { s1 with poolSupply := setA s1.poolSupply s1.assetIndex (posOf s1 s1.assetIndex - r.amount) }
  else .error .invalidRequest

/-- `initialize` (contract.rs 99–112): fails with
`AlreadyInitializedError` when already initialized; otherwise stores the
six addresses and sets `tracked_supply` to 0.  Performs no
`require_auth`.  (`storage::is_init` is modelled from the spec as a flag
that initialization sets.) -/
def initialize_ (admin token blend soroswap collateralToken pegkeeper : Address)
    (s : EnvState) : Except Failure EnvState × List ExtCall :=
  if s.initialized then (.error (.err .AlreadyInitializedError), [])
  else
    (.ok { s with
        initialized := true
        admin := admin
        blend := blend
        soroswap := soroswap
        token := token
        collateralToken := collateralToken
        tokenSupply := 0
        pegkeeper := pegkeeper }, [])

/-- `set_admin` (contract.rs 114–122): requires authorization of the
current admin and of the incoming admin, then stores the new admin. -/
def set_admin (ctx : AuthCtx) (new_admin : Address) (s : EnvState) :
    Except Failure EnvState × List ExtCall :=
  if ctx.auth s.admin then
    if ctx.auth new_admin then
      (.ok { s with admin := new_admin },
       [.requireAuth s.admin, .requireAuth new_admin])
    else (.error (.notAuthorized new_admin), [.requireAuth s.admin, .requireAuth new_admin])
  else (.error (.notAuthorized s.admin), [.requireAuth s.admin])

/-- `set_pegkeeper` (contract.rs 124–131): admin-authenticated update of
the pegkeeper address. -/
def set_pegkeeper (ctx : AuthCtx) (new_pegkeeper : Address) (s : EnvState) :
    Except Failure EnvState × List ExtCall :=
  if ctx.auth s.admin then
    (.ok { s with pegkeeper := new_pegkeeper }, [.requireAuth s.admin])
  else (.error (.notAuthorized s.admin), [.requireAuth s.admin])

/-- `set_loan_fee` (contract.rs 133–140): admin-authenticated update of
the loan fee. -/
def set_loan_fee (ctx : AuthCtx) (new_loan_fee : Int) (s : EnvState) :
    Except Failure EnvState × List ExtCall :=
  if ctx.auth s.admin then
    (.ok { s with loanFee := new_loan_fee }, [.requireAuth s.admin])
  else (.error (.notAuthorized s.admin), [.requireAuth s.admin])

/-- `increase_supply` (contract.rs 142–181): admin-authenticated; mints
`amount` to the treasury itself, grants itself a one-shot authorization
for `transfer(treasury, blend, amount)` on the token, submits a supply
request (type 0) for `amount` to the pool, then sets
`tracked_supply := tracked_supply + amount`. -/
def increase_supply (ctx : AuthCtx) (amount : Int) (s : EnvState) :
    Except Failure EnvState × List ExtCall :=
  if ctx.auth s.admin then
    let token := s.token
    let blend := s.blend
    let gTransfer : ExtCall :=
      .grant token "transfer" [.addr treasuryAddr, .addr blend, .int amount]
    match tokenMint s treasuryAddr amount with
    | .error f =>
        (.error f, [.requireAuth s.admin, .mintCall treasuryAddr amount])
    | .ok s1 =>
        let req : Request := ⟨0, token, amount⟩
        match poolSubmitOne s1 treasuryAddr treasuryAddr req with
        | .error f =>
            (.error f,
             [.requireAuth s.admin, .mintCall treasuryAddr amount, gTransfer,
              .poolSubmitCall treasuryAddr treasuryAddr treasuryAddr [req]])
        | .ok s2 =>
            (.ok { s2 with tokenSupply := s2.tokenSupply + amount },
             [.requireAuth s.admin, .mintCall treasuryAddr amount, gTransfer,
              .poolSubmitCall treasuryAddr treasuryAddr treasuryAddr [req]])
  else (.error (.notAuthorized s.admin), [.requireAuth s.admin])

/-- `decrease_supply` (contract.rs 183–222): admin-authenticated; fails
with `SupplyError` when `tracked_supply < amount`; reads the pool
position map and takes `.get(0).unwrap()` — the entry at fixed index 0,
panicking when it is absent — and fails with `SupplyError` when that
entry is `< amount`; then submits a withdraw request (type 1) for
`amount`, burns `amount` from the treasury's balance, and sets
`tracked_supply := tracked_supply - amount`. -/
def decrease_supply (ctx : AuthCtx) (amount : Int) (s : EnvState) :
    Except Failure EnvState × List ExtCall :=
  if ctx.auth s.admin then
    if s.tokenSupply < amount then
      (.error (.err .SupplyError), [.requireAuth s.admin])
    else
      let token := s.token
      match lookupA s.poolSupply 0 with
      | none =>
          (.error .mapUnwrapNone, [.requireAuth s.admin, .getPositionsCall treasuryAddr])
      | some position_amount =>
          if position_amount < amount then
            (.error (.err .SupplyError), [.requireAuth s.admin, .getPositionsCall treasuryAddr])
          else
            let req : Request := ⟨1, token, amount⟩
            match poolSubmitOne s treasuryAddr treasuryAddr req with
            | .error f =>
                (.error f,
                 [.requireAuth s.admin, .getPositionsCall treasuryAddr,
                  .poolSubmitCall treasuryAddr treasuryAddr treasuryAddr [req]])
            | .ok s1 =>
                match tokenBurn s1 treasuryAddr amount with
                | .error f =>
                    (.error f,
                     [.requireAuth s.admin, .getPositionsCall treasuryAddr,
                      .poolSubmitCall treasuryAddr treasuryAddr treasuryAddr [req],
                      .burnCall treasuryAddr amount])
                | .ok s2 =>
                    (.ok { s2 with tokenSupply := s2.tokenSupply - amount },
                     [.requireAuth s.admin, .getPositionsCall treasuryAddr,
                      .poolSubmitCall treasuryAddr treasuryAddr treasuryAddr [req],
                      .burnCall treasuryAddr amount])
  else (.error (.notAuthorized s.admin), [.requireAuth s.admin])

/-- `flash_loan` (contract.rs 224–291): reads pegkeeper, token and loan
fee from storage; requires `require_auth_for_args` of the pegkeeper for
exactly `(token, amount)`; grants itself one-shot authorizations for
`mint(treasury, pegkeeper, amount)` and `burn(treasury, amount)`; reads
`balance_before`; mints `amount` directly to the pegkeeper; invokes the
pegkeeper's `flashloan_receive` callback (`cb`, an arbitrary state
transformer — the borrower's code is opaque to the treasury); reads
`balance_after`; if `balance_after ≥ balance_before + amount + loan_fee`
burns `amount` from the treasury's own balance and publishes the
`(amount, loan_fee)` event, otherwise panics with
`FlashloanFailedError`. -/
def flash_loan (ctx : AuthCtx) (cb : EnvState → EnvState) (amount : Int) (s : EnvState) :
    Except Failure EnvState × List ExtCall :=
  let pegkeeper := s.pegkeeper
  let token := s.token
  let loan_fee := s.loanFee
  if ctx.authArgs pegkeeper token amount then
    let gMint : ExtCall :=
      .grant token "mint" [.addr treasuryAddr, .addr pegkeeper, .int amount]
    let gBurn : ExtCall := .grant token "burn" [.addr treasuryAddr, .int amount]
    let balance_before := balOf s treasuryAddr
    let pre : List ExtCall :=
      [.requireAuthForArgs pegkeeper token amount, gMint, gBurn,
       .balanceCall treasuryAddr, .mintCall pegkeeper amount]
    match tokenMint s pegkeeper amount with
    | .error f => (.error f, pre)
    | .ok s1 =>
        let cbc : ExtCall :=
          .callbackCall token treasuryAddr s.blend s.soroswap s.collateralToken amount loan_fee
        let s2 := cb s1
        let balance_after := balOf s2 treasuryAddr
        if balance_before + amount + loan_fee ≤ balance_after then
          match tokenBurn s2 treasuryAddr amount with
          | .error f => (.error f, pre ++ [cbc, .balanceCall treasuryAddr, .burnCall treasuryAddr amount])
          | .ok s3 =>
              (.ok { s3 with events := (amount, loan_fee) :: s3.events },
               pre ++ [cbc, .balanceCall treasuryAddr, .burnCall treasuryAddr amount,
                       .publish (amount, loan_fee)])
        else
          (.error (.err .FlashloanFailedError),
           pre ++ [cbc, .balanceCall treasuryAddr])
  else (.error (.notAuthorized pegkeeper), [.requireAuthForArgs pegkeeper token amount])

/-- Soroban transaction semantics: when a contract invocation traps, the
host rolls back every ledger effect of the call; the observable
post-state is the post-state on success and the unchanged pre-state on
any failure. -/
def invoke (f : EnvState → Except Failure EnvState × List ExtCall) (s : EnvState) : EnvState :=
  match (f s).1 with
  | .ok s' => s'
  | .error _ => s

deriving instance DecidableEq for Except

/-- Reachable treasury states: any state produced by `initialize_` from
an uninitialized state, closed under successful invocations of the
public entry points.  The flash-loan step ranges over callbacks that do
not drive `tracked_supply` negative: the callback is another contract's
invocation, and it can change treasury storage only by re-entering the
treasury's public entry points, each of which preserves nonnegativity. -/
inductive Reachable : EnvState → Prop where
  | boot (a t b so c p : Address) (s s' : EnvState) :
      s.initialized = false → (initialize_ a t b so c p s).1 = .ok s' → Reachable s'
  | stepSetAdmin (ctx : AuthCtx) (a : Address) (s s' : EnvState) :
      Reachable s → (set_admin ctx a s).1 = .ok s' → Reachable s'
  | stepSetPegkeeper (ctx : AuthCtx) (a : Address) (s s' : EnvState) :
      Reachable s → (set_pegkeeper ctx a s).1 = .ok s' → Reachable s'
  | stepSetLoanFee (ctx : AuthCtx) (fee : Int) (s s' : EnvState) :
      Reachable s → (set_loan_fee ctx fee s).1 = .ok s' → Reachable s'
  | stepIncrease (ctx : AuthCtx) (amount : Int) (s s' : EnvState) :
      Reachable s → (increase_supply ctx amount s).1 = .ok s' → Reachable s'
  | stepDecrease (ctx : AuthCtx) (amount : Int) (s s' : EnvState) :
      Reachable s → (decrease_supply ctx amount s).1 = .ok s' → Reachable s'
  | stepFlash (ctx : AuthCtx) (cb : EnvState → EnvState) (amount : Int) (s s' : EnvState) :
      Reachable s → (∀ u, 0 ≤ u.tokenSupply → 0 ≤ (cb u).tokenSupply) →
      (flash_loan ctx cb amount s).1 = .ok s' → Reachable s'

/-- Reachable states paired with the net of the completed
increase/decrease operations since initialization: each successful
`increase_supply amount` adds `amount` to the net, each successful
`decrease_supply amount` subtracts it, every other entry point leaves it
alone.  The flash-loan step ranges over callbacks that do not touch
`tracked_supply` (ones that do not re-enter the supply operations). -/
inductive ReachableNet : EnvState → Int → Prop where
  | boot (a t b so c p : Address) (s s' : EnvState) :
      s.initialized = false → (initialize_ a t b so c p s).1 = .ok s' → ReachableNet s' 0
  | stepSetAdmin (ctx : AuthCtx) (a : Address) (s s' : EnvState) (n : Int) :
      ReachableNet s n → (set_admin ctx a s).1 = .ok s' → ReachableNet s' n
  | stepSetPegkeeper (ctx : AuthCtx) (a : Address) (s s' : EnvState) (n : Int) :
      ReachableNet s n → (set_pegkeeper ctx a s).1 = .ok s' → ReachableNet s' n
  | stepSetLoanFee (ctx : AuthCtx) (fee : Int) (s s' : EnvState) (n : Int) :
      ReachableNet s n → (set_loan_fee ctx fee s).1 = .ok s' → ReachableNet s' n
  | stepIncrease (ctx : AuthCtx) (amount : Int) (s s' : EnvState) (n : Int) :
      ReachableNet s n → (increase_supply ctx amount s).1 = .ok s' →
      ReachableNet s' (n + amount)
  | stepDecrease (ctx : AuthCtx) (amount : Int) (s s' : EnvState) (n : Int) :
      ReachableNet s n → (decrease_supply ctx amount s).1 = .ok s' →
      ReachableNet s' (n - amount)
  | stepFlash (ctx : AuthCtx) (cb : EnvState → EnvState) (amount : Int) (s s' : EnvState) (n : Int) :
      ReachableNet s n → (∀ u, (cb u).tokenSupply = u.tokenSupply) →
      (flash_loan ctx cb amount s).1 = .ok s' → ReachableNet s' n

/-- An authorization context in which every address has signed for
everything (used to exercise the success paths on concrete states). -/
def ctxAll : AuthCtx := ⟨fun _ => true, fun _ _ _ => true⟩

/-- An authorization context in which nobody has signed anything. -/
def ctxNone : AuthCtx := ⟨fun _ => false, fun _ _ _ => false⟩

/-- A concrete initialized treasury state used to exercise the
theorems: loan fee 1000, tracked supply 5, pool position 5 at reserve
index 0. -/
def sBase : EnvState :=
  { initialized := true, admin := 1, token := 2, blend := 3, soroswap := 4,
    collateralToken := 5, pegkeeper := 6, loanFee := 1000, tokenSupply := 5,
    balances := [], poolSupply := [(0, 5)], assetIndex := 0, events := [] }

/-- A concrete uninitialized state. -/
def sFresh : EnvState :=
  { initialized := false, admin := 9, token := 9, blend := 9, soroswap := 9,
    collateralToken := 9, pegkeeper := 9, loanFee := 7, tokenSupply := 3,
    balances := [], poolSupply := [], assetIndex := 0, events := [] }

/-- A concrete state whose pool supply map has no entry at index 0
(the asset sits at reserve index 1). -/
def sNoZero : EnvState :=
  { initialized := true, admin := 1, token := 2, blend := 3, soroswap := 4,
    collateralToken := 5, pegkeeper := 6, loanFee := 1000, tokenSupply := 5,
    balances := [], poolSupply := [(1, 50)], assetIndex := 1, events := [] }

/-- A concrete borrower callback that transfers `amount + fee` back to
the treasury (repaying principal plus the fee of `sBase`). -/
def cbRepay (amount : Int) : EnvState → EnvState := fun u =>
  { u with balances := setA u.balances treasuryAddr (balOf u treasuryAddr + amount + 1000) }

/-- A concrete borrower callback that repays nothing. -/
def cbKeep : EnvState → EnvState := fun u => u

/-- A concrete state whose tracked supply (5) exceeds its pool-reported
position at index 0 (2). -/
def sLowPos : EnvState :=
  { initialized := true, admin := 1, token := 2, blend := 3, soroswap := 4,
    collateralToken := 5, pegkeeper := 6, loanFee := 1000, tokenSupply := 5,
    balances := [], poolSupply := [(0, 2)], assetIndex := 0, events := [] }

lemma lookupA_setA {κ α : Type} [DecidableEq κ] (m : List (κ × α)) (k q : κ) (v : α) :
    lookupA (setA m k v) q = if q = k then some v else lookupA m q := by
  induction m with
  | nil => simp [setA, lookupA]
  | cons kv rest ih =>
      obtain ⟨k', v'⟩ := kv
      by_cases hk : k = k'
      · subst hk
        by_cases hq : q = k <;> simp [setA, lookupA, hq]
      · have hne : ¬ k' = k := fun h => hk h.symm
        by_cases hq : q = k' <;>
          simp [setA, hk, lookupA, hq, ih, if_neg hne]

lemma invoke_of_error (f : EnvState → Except Failure EnvState × List ExtCall)
    (s : EnvState) (e : Failure) (h : (f s).1 = .error e) : invoke f s = s := by
  unfold invoke
  rw [h]

lemma invoke_of_ok (f : EnvState → Except Failure EnvState × List ExtCall)
    (s s' : EnvState) (h : (f s).1 = .ok s') : invoke f s = s' := by
  unfold invoke
  rw [h]

lemma tokenMint_ok_inv (s : EnvState) (dst : Address) (amount : Int) (sm : EnvState)
    (h : tokenMint s dst amount = .ok sm) :
    0 ≤ amount ∧
      sm = { s with balances := setA s.balances dst (balOf s dst + amount) } := by
  unfold tokenMint at h
  by_cases hneg : amount < 0
  · rw [if_pos hneg] at h
    exact absurd h (by simp)
  · rw [if_neg hneg] at h
    exact ⟨by omega, (Except.ok.inj h).symm⟩

lemma tokenBurn_ok_inv (s : EnvState) (src : Address) (amount : Int) (sb : EnvState)
    (h : tokenBurn s src amount = .ok sb) :
    0 ≤ amount ∧
      sb = { s with balances := setA s.balances src (balOf s src - amount) } := by
  unfold tokenBurn at h
  by_cases hneg : amount < 0
  · rw [if_pos hneg] at h
    exact absurd h (by simp)
  · rw [if_neg hneg] at h
    exact ⟨by omega, (Except.ok.inj h).symm⟩

lemma poolSubmitOne_ok_inv (s : EnvState) (src dst : Address) (r : Request) (s1 : EnvState)
    (h : poolSubmitOne s src dst r = .ok s1) :
    0 ≤ r.amount ∧ s1.tokenSupply = s.tokenSupply ∧ s1.admin = s.admin ∧
    s1.initialized = s.initialized ∧ s1.token = s.token ∧ s1.blend = s.blend ∧
    s1.soroswap = s.soroswap ∧ s1.collateralToken = s.collateralToken ∧
    s1.pegkeeper = s.pegkeeper ∧ s1.loanFee = s.loanFee ∧
    s1.assetIndex = s.assetIndex ∧ s1.events = s.events ∧
    ((r.request_type = 0 ∧
        s1.poolSupply = setA s.poolSupply s.assetIndex (posOf s s.assetIndex + r.amount)) ∨
     (r.request_type = 1 ∧
        s1.poolSupply = setA s.poolSupply s.assetIndex (posOf s s.assetIndex - r.amount))) := by
  unfold poolSubmitOne at h
  by_cases hneg : r.amount < 0
  · rw [if_pos hneg] at h
    exact absurd h (by simp)
  rw [if_neg hneg] at h
  by_cases h0 : r.request_type = 0
  · rw [if_pos h0] at h
    simp only [tokenTransfer, if_neg hneg] at h
    cases Except.ok.inj h
    refine ⟨by omega, ?_⟩
    simp [posOf, h0]
  · rw [if_neg h0] at h
    by_cases h1 : r.request_type = 1
    · rw [if_pos h1] at h
      simp only [tokenTransfer, if_neg hneg] at h
      cases Except.ok.inj h
      refine ⟨by omega, ?_⟩
      simp [posOf, h1]
    · rw [if_neg h1] at h
      exact absurd h (by simp)

lemma decrease_supply_ok_inv (ctx : AuthCtx) (amount : Int) (s s' : EnvState)
    (h : (decrease_supply ctx amount s).1 = .ok s') :
    ctx.auth s.admin = true ∧ 0 ≤ amount ∧ amount ≤ s.tokenSupply ∧
    (∃ p, lookupA s.poolSupply 0 = some p ∧ amount ≤ p) ∧
    s'.tokenSupply = s.tokenSupply - amount ∧
    s'.admin = s.admin ∧ s'.assetIndex = s.assetIndex ∧
    s'.initialized = s.initialized ∧ s'.token = s.token ∧ s'.blend = s.blend ∧
    s'.pegkeeper = s.pegkeeper ∧ s'.loanFee = s.loanFee ∧
    s'.poolSupply = setA s.poolSupply s.assetIndex (posOf s s.assetIndex - amount) := by
  simp only [decrease_supply] at h
  split at h
  case isFalse hauth => simp at h
  case isTrue hauth =>
  split at h
  case isTrue hsup => simp at h
  case isFalse hsup =>
  split at h
  case h_1 heq => simp at h
  case h_2 p heq =>
  split at h
  case isTrue hlt => simp at h
  case isFalse hlt =>
  split at h
  case h_1 f heq1 => simp at h
  case h_2 s1 heq1 =>
  split at h
  case h_1 f heq2 => simp at h
  case h_2 s2 heq2 =>
  simp only [Except.ok.injEq] at h
  subst h
  obtain ⟨hnn, hts, had, hin, htk, hbl, hso, hco, hpk, hlf, hai, hev, hcase⟩ :=
    poolSubmitOne_ok_inv s treasuryAddr treasuryAddr _ s1 heq1
  obtain ⟨-, hb⟩ := tokenBurn_ok_inv s1 treasuryAddr amount s2 heq2
  rcases hcase with ⟨hrt, -⟩ | ⟨hrt, hps⟩
  · simp at hrt
  refine ⟨hauth, by simpa using hnn, by omega, ⟨p, heq, by omega⟩, ?_⟩
  subst hb
  simp [hts, had, hai, hin, htk, hbl, hpk, hlf, hps]

lemma increase_supply_ok_inv (ctx : AuthCtx) (amount : Int) (s s' : EnvState)
    (h : (increase_supply ctx amount s).1 = .ok s') :
    ctx.auth s.admin = true ∧ 0 ≤ amount ∧
    s'.tokenSupply = s.tokenSupply + amount ∧
    s'.admin = s.admin ∧ s'.assetIndex = s.assetIndex ∧
    s'.initialized = s.initialized ∧ s'.token = s.token ∧ s'.blend = s.blend ∧
    s'.pegkeeper = s.pegkeeper ∧ s'.loanFee = s.loanFee ∧
    s'.poolSupply = setA s.poolSupply s.assetIndex (posOf s s.assetIndex + amount) := by
  simp only [increase_supply] at h
  split at h
  case isFalse hauth => simp at h
  case isTrue hauth =>
  split at h
  case h_1 f heq1 => simp at h
  case h_2 sm heq1 =>
  split at h
  case h_1 f heq2 => simp at h
  case h_2 s2 heq2 =>
  simp only [Except.ok.injEq] at h
  subst h
  obtain ⟨hnn, hsm⟩ := tokenMint_ok_inv s treasuryAddr amount sm heq1
  obtain ⟨-, hts, had, hin, htk, hbl, hso, hco, hpk, hlf, hai, hev, hcase⟩ :=
    poolSubmitOne_ok_inv sm treasuryAddr treasuryAddr _ s2 heq2
  rcases hcase with ⟨hrt, hps⟩ | ⟨hrt, -⟩
  · subst hsm
    refine ⟨hauth, hnn, ?_⟩
    simp only [posOf] at hps ⊢
    simp [hts, had, hai, hin, htk, hbl, hpk, hlf, hps]
  · simp at hrt

lemma flash_loan_ok_inv (ctx : AuthCtx) (cb : EnvState → EnvState) (amount : Int)
    (s s' : EnvState) (h : (flash_loan ctx cb amount s).1 = .ok s') :
    ∃ sm, tokenMint s s.pegkeeper amount = .ok sm ∧
      sm.tokenSupply = s.tokenSupply ∧
      s'.tokenSupply = (cb sm).tokenSupply := by
  simp only [flash_loan] at h
  split at h
  case isFalse hauth => simp at h
  case isTrue hauth =>
  split at h
  case h_1 f heq1 => simp at h
  case h_2 sm heq1 =>
  split at h
  case isFalse hbal => simp at h
  case isTrue hbal =>
  split at h
  case h_1 f heq2 => simp at h
  case h_2 s3 heq2 =>
  simp only [Except.ok.injEq] at h
  subst h
  obtain ⟨-, hsm⟩ := tokenMint_ok_inv s s.pegkeeper amount sm heq1
  obtain ⟨-, hb⟩ := tokenBurn_ok_inv (cb sm) treasuryAddr amount s3 heq2
  refine ⟨sm, heq1, by rw [hsm], ?_⟩
  subst hb
  simp

lemma initialize_ok_inv (a t b so c p : Address) (s s' : EnvState)
    (h : (initialize_ a t b so c p s).1 = .ok s') :
    s.initialized = false ∧
    s' = { s with
        initialized := true
        admin := a
        blend := b
        soroswap := so
        token := t
        collateralToken := c
        tokenSupply := 0
        pegkeeper := p } := by
  simp only [initialize_] at h
  split at h
  case isTrue hin => simp at h
  case isFalse hin =>
  simp only [Except.ok.injEq] at h
  exact ⟨by simpa using hin, h.symm⟩

lemma set_admin_ok_inv (ctx : AuthCtx) (a : Address) (s s' : EnvState)
    (h : (set_admin ctx a s).1 = .ok s') : s' = { s with admin := a } := by
  simp only [set_admin] at h
  split at h
  case isFalse => simp at h
  case isTrue =>
  split at h
  case isFalse => simp at h
  case isTrue =>
  simp only [Except.ok.injEq] at h
  exact h.symm

lemma set_pegkeeper_ok_inv (ctx : AuthCtx) (a : Address) (s s' : EnvState)
    (h : (set_pegkeeper ctx a s).1 = .ok s') : s' = { s with pegkeeper := a } := by
  simp only [set_pegkeeper] at h
  split at h
  case isFalse => simp at h
  case isTrue =>
  simp only [Except.ok.injEq] at h
  exact h.symm

lemma set_loan_fee_ok_inv (ctx : AuthCtx) (fee : Int) (s s' : EnvState)
    (h : (set_loan_fee ctx fee s).1 = .ok s') : s' = { s with loanFee := fee } := by
  simp only [set_loan_fee] at h
  split at h
  case isFalse => simp at h
  case isTrue =>
  simp only [Except.ok.injEq] at h
  exact h.symm

lemma decrease_run_supply_err (ctx : AuthCtx) (amount : Int) (s : EnvState)
    (hauth : ctx.auth s.admin = true) (hsup : s.tokenSupply < amount) :
    decrease_supply ctx amount s =
      (.error (.err .SupplyError), [.requireAuth s.admin]) := by
  simp [decrease_supply, hauth, if_pos hsup]

lemma decrease_run_pos_err (ctx : AuthCtx) (amount : Int) (s : EnvState) (p : Int)
    (hauth : ctx.auth s.admin = true) (hsup : ¬ s.tokenSupply < amount)
    (hpos : lookupA s.poolSupply 0 = some p) (hlt : p < amount) :
    decrease_supply ctx amount s =
      (.error (.err .SupplyError),
       [.requireAuth s.admin, .getPositionsCall treasuryAddr]) := by
  simp [decrease_supply, hauth, if_neg hsup, hpos, if_pos hlt]

lemma decrease_run_none (ctx : AuthCtx) (amount : Int) (s : EnvState)
    (hauth : ctx.auth s.admin = true) (hsup : ¬ s.tokenSupply < amount)
    (hpos : lookupA s.poolSupply 0 = none) :
    decrease_supply ctx amount s =
      (.error .mapUnwrapNone,
       [.requireAuth s.admin, .getPositionsCall treasuryAddr]) := by
  simp [decrease_supply, hauth, if_neg hsup, hpos]

lemma increase_ok_exists (ctx : AuthCtx) (amount : Int) (s : EnvState)
    (hauth : ctx.auth s.admin = true) (hneg : ¬ amount < 0) :
    ∃ s', (increase_supply ctx amount s).1 = .ok s' := by
  simp only [increase_supply, hauth, if_pos, tokenMint, if_neg hneg, poolSubmitOne,
    tokenTransfer]
  simp [if_neg hneg]

lemma increase_run_trace (ctx : AuthCtx) (amount : Int) (s : EnvState)
    (hauth : ctx.auth s.admin = true) (hneg : ¬ amount < 0) :
    (increase_supply ctx amount s).2 =
      [.requireAuth s.admin, .mintCall treasuryAddr amount,
       .grant s.token "transfer" [.addr treasuryAddr, .addr s.blend, .int amount],
       .poolSubmitCall treasuryAddr treasuryAddr treasuryAddr [⟨0, s.token, amount⟩]] := by
  simp [increase_supply, hauth, tokenMint, if_neg hneg, poolSubmitOne, tokenTransfer]

lemma flash_loan_run_fail (ctx : AuthCtx) (cb : EnvState → EnvState)
    (amount : Int) (s sm : EnvState)
    (hauth : ctx.authArgs s.pegkeeper s.token amount = true)
    (hm : tokenMint s s.pegkeeper amount = .ok sm)
    (hbal : balOf (cb sm) treasuryAddr < balOf s treasuryAddr + amount + s.loanFee) :
    flash_loan ctx cb amount s =
      (.error (.err .FlashloanFailedError),
       [.requireAuthForArgs s.pegkeeper s.token amount,
        .grant s.token "mint" [.addr treasuryAddr, .addr s.pegkeeper, .int amount],
        .grant s.token "burn" [.addr treasuryAddr, .int amount],
        .balanceCall treasuryAddr, .mintCall s.pegkeeper amount,
        .callbackCall s.token treasuryAddr s.blend s.soroswap s.collateralToken amount s.loanFee,
        .balanceCall treasuryAddr]) := by
  simp [flash_loan, hauth, hm, if_neg (not_le.mpr hbal)]

lemma flash_loan_run_ok (ctx : AuthCtx) (cb : EnvState → EnvState)
    (amount : Int) (s sm : EnvState)
    (hauth : ctx.authArgs s.pegkeeper s.token amount = true)
    (hm : tokenMint s s.pegkeeper amount = .ok sm)
    (hbal : balOf s treasuryAddr + amount + s.loanFee ≤ balOf (cb sm) treasuryAddr) :
    flash_loan ctx cb amount s =
      (.ok { cb sm with
          balances := setA (cb sm).balances treasuryAddr (balOf (cb sm) treasuryAddr - amount)
          events := (amount, s.loanFee) :: (cb sm).events },
       [.requireAuthForArgs s.pegkeeper s.token amount,
        .grant s.token "mint" [.addr treasuryAddr, .addr s.pegkeeper, .int amount],
        .grant s.token "burn" [.addr treasuryAddr, .int amount],
        .balanceCall treasuryAddr, .mintCall s.pegkeeper amount,
        .callbackCall s.token treasuryAddr s.blend s.soroswap s.collateralToken amount s.loanFee,
        .balanceCall treasuryAddr, .burnCall treasuryAddr amount,
        .publish (amount, s.loanFee)]) := by
  obtain ⟨hnn, -⟩ := tokenMint_ok_inv s s.pegkeeper amount sm hm
  simp [flash_loan, hauth, hm, if_pos hbal, tokenBurn, if_neg (not_lt.mpr hnn)]

/-- C1: a flash loan whose borrower callback returns with the treasury
balance strictly below `balance_before + amount + loan_fee` fails with
`FlashloanFailedError`, and the host rolls the whole invocation back:
`tracked_supply`, the treasury's balance and the borrower's balance all
keep their pre-call values (the mint to the borrower included). -/
theorem flash_loan_shortfall_reverts (ctx : AuthCtx) (cb : EnvState → EnvState)
    (amount : Int) (s sm : EnvState)
    (hauth : ctx.authArgs s.pegkeeper s.token amount = true)
    (hm : tokenMint s s.pegkeeper amount = .ok sm)
    (hbal : balOf (cb sm) treasuryAddr < balOf s treasuryAddr + amount + s.loanFee) :
    (flash_loan ctx cb amount s).1 = .error (.err .FlashloanFailedError) ∧
    invoke (flash_loan ctx cb amount) s = s ∧
    (invoke (flash_loan ctx cb amount) s).tokenSupply = s.tokenSupply ∧
    balOf (invoke (flash_loan ctx cb amount) s) treasuryAddr = balOf s treasuryAddr ∧
    balOf (invoke (flash_loan ctx cb amount) s) s.pegkeeper = balOf s s.pegkeeper := by
  have hres : (flash_loan ctx cb amount s).1 = .error (.err .FlashloanFailedError) := by
    rw [flash_loan_run_fail ctx cb amount s sm hauth hm hbal]
  have hrev : invoke (flash_loan ctx cb amount) s = s :=
    invoke_of_error _ _ _ hres
  exact ⟨hres, hrev, by rw [hrev], by rw [hrev], by rw [hrev]⟩

/-- C2: a flash loan whose borrower callback returns with the treasury
balance at least `balance_before + amount + loan_fee` succeeds: it burns
exactly `amount` from the treasury's own balance (the fee stays behind
as surplus) and emits the loan-completed record `(amount, loan_fee)`. -/
theorem flash_loan_success_settles (ctx : AuthCtx) (cb : EnvState → EnvState)
    (amount : Int) (s sm : EnvState)
    (hauth : ctx.authArgs s.pegkeeper s.token amount = true)
    (hm : tokenMint s s.pegkeeper amount = .ok sm)
    (hbal : balOf s treasuryAddr + amount + s.loanFee ≤ balOf (cb sm) treasuryAddr) :
    ∃ s', (flash_loan ctx cb amount s).1 = .ok s' ∧
      balOf s' treasuryAddr = balOf (cb sm) treasuryAddr - amount ∧
      s'.events = (amount, s.loanFee) :: (cb sm).events ∧
      ExtCall.publish (amount, s.loanFee) ∈ (flash_loan ctx cb amount s).2 := by
  refine ⟨{ cb sm with
      balances := setA (cb sm).balances treasuryAddr (balOf (cb sm) treasuryAddr - amount)
      events := (amount, s.loanFee) :: (cb sm).events }, ?_, ?_, rfl, ?_⟩
  · rw [flash_loan_run_ok ctx cb amount s sm hauth hm hbal]
  · simp [balOf, lookupA_setA]
  · rw [flash_loan_run_ok ctx cb amount s sm hauth hm hbal]
    simp

/-- C3: `flash_loan` demands `require_auth_for_args` of the registered
pegkeeper for exactly `(token, amount)`; an invocation without that
authorization aborts before any mint: the trace holds only the failed
authorization check, no `mintCall` appears in it, and the state is
unchanged. -/
theorem flash_loan_requires_pegkeeper_auth (ctx : AuthCtx) (cb : EnvState → EnvState)
    (amount : Int) (s : EnvState)
    (hauth : ctx.authArgs s.pegkeeper s.token amount = false) :
    (flash_loan ctx cb amount s).1 = .error (.notAuthorized s.pegkeeper) ∧
    (flash_loan ctx cb amount s).2 = [.requireAuthForArgs s.pegkeeper s.token amount] ∧
    (∀ dst a, ExtCall.mintCall dst a ∉ (flash_loan ctx cb amount s).2) ∧
    invoke (flash_loan ctx cb amount) s = s := by
  have h1 : flash_loan ctx cb amount s =
      (.error (.notAuthorized s.pegkeeper),
       [.requireAuthForArgs s.pegkeeper s.token amount]) := by
    unfold flash_loan
    simp [hauth]
  refine ⟨by rw [h1], by rw [h1], ?_, invoke_of_error _ _ _ (by rw [h1])⟩
  intro dst a hmem
  rw [h1] at hmem
  simp at hmem

/-- Witness for C1: on `sBase` with a callback that keeps the whole
loan, the flash loan of 3 fails and reverts. -/
theorem flash_loan_shortfall_reverts_witness :
    ctxAll.authArgs sBase.pegkeeper sBase.token 3 = true ∧
    tokenMint sBase sBase.pegkeeper 3 = .ok { sBase with balances := [(6, 3)] } ∧
    balOf (cbKeep { sBase with balances := [(6, 3)] }) treasuryAddr <
      balOf sBase treasuryAddr + 3 + sBase.loanFee ∧
    (flash_loan ctxAll cbKeep 3 sBase).1 = .error (.err .FlashloanFailedError) ∧
    invoke (flash_loan ctxAll cbKeep 3) sBase = sBase :=
  ⟨by decide, by decide, by decide,
   (flash_loan_shortfall_reverts ctxAll cbKeep 3 sBase
      { sBase with balances := [(6, 3)] } (by decide) (by decide) (by decide)).1,
   (flash_loan_shortfall_reverts ctxAll cbKeep 3 sBase
      { sBase with balances := [(6, 3)] } (by decide) (by decide) (by decide)).2.1⟩

/-- Witness for C2: on `sBase` with a callback repaying `amount + fee`,
the flash loan of 3 succeeds, burns 3 and emits `(3, 1000)`. -/
theorem flash_loan_success_settles_witness :
    ctxAll.authArgs sBase.pegkeeper sBase.token 3 = true ∧
    tokenMint sBase sBase.pegkeeper 3 = .ok { sBase with balances := [(6, 3)] } ∧
    balOf sBase treasuryAddr + 3 + sBase.loanFee ≤
      balOf (cbRepay 3 { sBase with balances := [(6, 3)] }) treasuryAddr ∧
    ∃ s', (flash_loan ctxAll (cbRepay 3) 3 sBase).1 = .ok s' ∧
      balOf s' treasuryAddr =
        balOf (cbRepay 3 { sBase with balances := [(6, 3)] }) treasuryAddr - 3 ∧
      s'.events = (3, sBase.loanFee) :: (cbRepay 3 { sBase with balances := [(6, 3)] }).events ∧
      ExtCall.publish (3, sBase.loanFee) ∈ (flash_loan ctxAll (cbRepay 3) 3 sBase).2 :=
  ⟨by decide, by decide, by decide,
   flash_loan_success_settles ctxAll (cbRepay 3) 3 sBase
     { sBase with balances := [(6, 3)] } (by decide) (by decide) (by decide)⟩

/-- C4: an admin-authenticated `decrease_supply(amount)` fails with
`SupplyError` and leaves the state untouched whenever
`amount > tracked_supply`, and likewise whenever the pool-reported
position that the code reads (the supply-map entry at index 0) is below
`amount`, even though `tracked_supply` alone would permit it. -/
theorem decrease_supply_guards (ctx : AuthCtx) (amount : Int) (s : EnvState)
    (hauth : ctx.auth s.admin = true) :
    (s.tokenSupply < amount →
      (decrease_supply ctx amount s).1 = .error (.err .SupplyError) ∧
      invoke (decrease_supply ctx amount) s = s) ∧
    (∀ p, ¬ s.tokenSupply < amount → lookupA s.poolSupply 0 = some p → p < amount →
      (decrease_supply ctx amount s).1 = .error (.err .SupplyError) ∧
      invoke (decrease_supply ctx amount) s = s) := by
  constructor
  · intro hsup
    have hrun := decrease_run_supply_err ctx amount s hauth hsup
    exact ⟨by rw [hrun], invoke_of_error _ _ _ (by rw [hrun])⟩
  · intro p hsup hpos hlt
    have hrun := decrease_run_pos_err ctx amount s p hauth hsup hpos hlt
    exact ⟨by rw [hrun], invoke_of_error _ _ _ (by rw [hrun])⟩

/-- Witness for C4: on `sBase` (supply 5, position 5), withdrawing 7
trips the ledger check; on `sLowPos` (supply 5, position 2),
withdrawing 4 trips the position check. -/
theorem decrease_supply_guards_witness :
    (ctxAll.auth sBase.admin = true ∧ sBase.tokenSupply < 7 ∧
      (decrease_supply ctxAll 7 sBase).1 = .error (.err .SupplyError) ∧
      invoke (decrease_supply ctxAll 7) sBase = sBase) ∧
    (ctxAll.auth sLowPos.admin = true ∧ ¬ sLowPos.tokenSupply < 4 ∧
      lookupA sLowPos.poolSupply 0 = some 2 ∧ (2 : Int) < 4 ∧
      (decrease_supply ctxAll 4 sLowPos).1 = .error (.err .SupplyError) ∧
      invoke (decrease_supply ctxAll 4) sLowPos = sLowPos) :=
  ⟨⟨by decide, by decide,
    (decrease_supply_guards ctxAll 7 sBase (by decide)).1 (by decide)⟩,
   ⟨by decide, by decide, by decide, by decide,
    (decrease_supply_guards ctxAll 4 sLowPos (by decide)).2 2 (by decide) (by decide)
      (by decide)⟩⟩

/-- C5: an admin-authenticated `increase_supply(amount)` (with `amount`
nonnegative, otherwise the issuer rejects the mint) succeeds; it mints
`amount` to the treasury itself, grants a `transfer` authorization bound
to exactly `(treasury, blend, amount)` on the token, submits a type-0
supply request for exactly `amount`, and raises both `tracked_supply`
and the pool position by exactly `amount`; and whenever any step of
`increase_supply` fails, the host reverts the call, so no mutation
survives. -/
theorem increase_supply_spec :
    (∀ (ctx : AuthCtx) (amount : Int) (s : EnvState),
      ctx.auth s.admin = true → 0 ≤ amount →
      ∃ s', (increase_supply ctx amount s).1 = .ok s' ∧
        s'.tokenSupply = s.tokenSupply + amount ∧
        posOf s' s.assetIndex = posOf s s.assetIndex + amount ∧
        (increase_supply ctx amount s).2 =
          [.requireAuth s.admin, .mintCall treasuryAddr amount,
           .grant s.token "transfer" [.addr treasuryAddr, .addr s.blend, .int amount],
           .poolSubmitCall treasuryAddr treasuryAddr treasuryAddr [⟨0, s.token, amount⟩]]) ∧
    (∀ (ctx : AuthCtx) (amount : Int) (s : EnvState) (f : Failure),
      (increase_supply ctx amount s).1 = .error f →
      invoke (increase_supply ctx amount) s = s) := by
  constructor
  · intro ctx amount s hauth hnn
    obtain ⟨s', hok⟩ := increase_ok_exists ctx amount s hauth (not_lt.mpr hnn)
    obtain ⟨-, -, hts, -, hai, -, -, -, -, -, hps⟩ :=
      increase_supply_ok_inv ctx amount s s' hok
    refine ⟨s', hok, hts, ?_, increase_run_trace ctx amount s hauth (not_lt.mpr hnn)⟩
    simp [posOf, hps, lookupA_setA]
  · intro ctx amount s f hf
    exact invoke_of_error _ _ _ hf

/-- Witness for C5: increasing supply by 10 on `sBase` takes
`tracked_supply` from 5 to 15 and the position from 5 to 15, with the
expected call trace. -/
theorem increase_supply_spec_witness :
    ctxAll.auth sBase.admin = true ∧ (0 : Int) ≤ 10 ∧
    ∃ s', (increase_supply ctxAll 10 sBase).1 = .ok s' ∧
      s'.tokenSupply = sBase.tokenSupply + 10 ∧
      posOf s' sBase.assetIndex = posOf sBase sBase.assetIndex + 10 ∧
      (increase_supply ctxAll 10 sBase).2 =
        [.requireAuth sBase.admin, .mintCall treasuryAddr 10,
         .grant sBase.token "transfer"
           [.addr treasuryAddr, .addr sBase.blend, .int 10],
         .poolSubmitCall treasuryAddr treasuryAddr treasuryAddr
           [⟨0, sBase.token, 10⟩]] :=
  ⟨by decide, by decide, increase_supply_spec.1 ctxAll 10 sBase (by decide) (by decide)⟩

/-- C9: `decrease_supply` reads the treasury's pool position at the
fixed map index 0 (`position.get(0).unwrap()`), not at the asset's
resolved reserve index: in every state whose supply map has no entry at
index 0 (here the asset sits at whatever `assetIndex` says), a call that
has passed the ledger check panics on the `unwrap` — it does not fail
with `SupplyError`. -/
theorem decrease_supply_index_zero_unwrap (ctx : AuthCtx) (amount : Int) (s : EnvState)
    (hauth : ctx.auth s.admin = true)
    (hsup : ¬ s.tokenSupply < amount)
    (hnone : lookupA s.poolSupply 0 = none) :
    (decrease_supply ctx amount s).1 = .error .mapUnwrapNone ∧
    (decrease_supply ctx amount s).1 ≠ .error (.err .SupplyError) ∧
    (decrease_supply ctx amount s).2 =
      [.requireAuth s.admin, .getPositionsCall treasuryAddr] := by
  have hrun := decrease_run_none ctx amount s hauth hsup hnone
  exact ⟨by rw [hrun], by rw [hrun]; simp, by rw [hrun]⟩

/-- Witness for C9: on `sNoZero` (position held at reserve index 1,
nothing at index 0), withdrawing 3 panics on the unwrap. -/
theorem decrease_supply_index_zero_unwrap_witness :
    ctxAll.auth sNoZero.admin = true ∧ ¬ sNoZero.tokenSupply < 3 ∧
    lookupA sNoZero.poolSupply 0 = none ∧
    (decrease_supply ctxAll 3 sNoZero).1 = .error .mapUnwrapNone ∧
    (decrease_supply ctxAll 3 sNoZero).1 ≠ .error (.err .SupplyError) :=
  ⟨by decide, by decide, by decide,
   (decrease_supply_index_zero_unwrap ctxAll 3 sNoZero (by decide) (by decide)
      (by decide)).1,
   (decrease_supply_index_zero_unwrap ctxAll 3 sNoZero (by decide) (by decide)
      (by decide)).2.1⟩

/-- Witness for C3: a caller holding no authorization is rejected and
nothing is minted. -/
theorem flash_loan_requires_pegkeeper_auth_witness :
    ctxNone.authArgs sBase.pegkeeper sBase.token 3 = false ∧
    (flash_loan ctxNone cbKeep 3 sBase).1 = .error (.notAuthorized sBase.pegkeeper) ∧
    (∀ dst a, ExtCall.mintCall dst a ∉ (flash_loan ctxNone cbKeep 3 sBase).2) ∧
    invoke (flash_loan ctxNone cbKeep 3) sBase = sBase :=
  ⟨by decide,
   (flash_loan_requires_pegkeeper_auth ctxNone cbKeep 3 sBase (by decide)).1,
   (flash_loan_requires_pegkeeper_auth ctxNone cbKeep 3 sBase (by decide)).2.2.1,
   (flash_loan_requires_pegkeeper_auth ctxNone cbKeep 3 sBase (by decide)).2.2.2⟩

lemma posOf_update (s s' : EnvState) (v : Int)
    (hps : s'.poolSupply = setA s.poolSupply s.assetIndex v) (j : Nat) :
    posOf s' j = if j = s.assetIndex then v else posOf s j := by
  simp only [posOf, hps, lookupA_setA]
  by_cases hj : j = s.assetIndex <;> simp [hj]

/-- C6: for any amount on which both calls succeed,
`decrease_supply(amount)` followed by `increase_supply(amount)` — and
likewise the two calls in the other order — leaves `tracked_supply` and
the pool-reported position (at every reserve index) unchanged. -/
theorem supply_round_trip :
    (∀ (ctxd ctxi : AuthCtx) (amount : Int) (s d1 d2 : EnvState),
      (decrease_supply ctxd amount s).1 = .ok d1 →
      (increase_supply ctxi amount d1).1 = .ok d2 →
      d2.tokenSupply = s.tokenSupply ∧ ∀ j, posOf d2 j = posOf s j) ∧
    (∀ (ctxi ctxd : AuthCtx) (amount : Int) (s i1 i2 : EnvState),
      (increase_supply ctxi amount s).1 = .ok i1 →
      (decrease_supply ctxd amount i1).1 = .ok i2 →
      i2.tokenSupply = s.tokenSupply ∧ ∀ j, posOf i2 j = posOf s j) := by
  constructor
  · intro ctxd ctxi amount s d1 d2 hd hi
    obtain ⟨-, -, -, -, hts1, -, hai1, -, -, -, -, -, hps1⟩ :=
      decrease_supply_ok_inv ctxd amount s d1 hd
    obtain ⟨-, -, hts2, -, -, -, -, -, -, -, hps2⟩ :=
      increase_supply_ok_inv ctxi amount d1 d2 hi
    refine ⟨by omega, ?_⟩
    intro j
    rw [posOf_update d1 d2 _ hps2 j, hai1]
    have hd1 : ∀ q, posOf d1 q =
        if q = s.assetIndex then posOf s s.assetIndex - amount else posOf s q := by
      intro q
      rw [posOf_update s d1 _ hps1 q]
    by_cases hj : j = s.assetIndex
    · rw [if_pos hj, hd1 s.assetIndex, if_pos rfl, hj]
      omega
    · rw [if_neg hj, hd1 j, if_neg hj]
  · intro ctxi ctxd amount s i1 i2 hi2 hd2
    obtain ⟨-, -, hts3, -, hai3, -, -, -, -, -, hps3⟩ :=
      increase_supply_ok_inv ctxi amount s i1 hi2
    obtain ⟨-, -, -, -, hts4, -, -, -, -, -, -, -, hps4⟩ :=
      decrease_supply_ok_inv ctxd amount i1 i2 hd2
    refine ⟨by omega, ?_⟩
    intro j
    rw [posOf_update i1 i2 _ hps4 j, hai3]
    have hi1 : ∀ q, posOf i1 q =
        if q = s.assetIndex then posOf s s.assetIndex + amount else posOf s q := by
      intro q
      rw [posOf_update s i1 _ hps3 q]
    by_cases hj : j = s.assetIndex
    · rw [if_pos hj, hi1 s.assetIndex, if_pos rfl, hj]
      omega
    · rw [if_neg hj, hi1 j, if_neg hj]

/-- Witness for C6: on `sBase` (supply 5, position 5), withdrawing 3
then supplying 3 — and supplying 3 then withdrawing 3 — restores
supply 5 and position 5. -/
theorem supply_round_trip_witness :
    (decrease_supply ctxAll 3 sBase).1 =
        .ok (invoke (decrease_supply ctxAll 3) sBase) ∧
    (increase_supply ctxAll 3 (invoke (decrease_supply ctxAll 3) sBase)).1 =
        .ok (invoke (increase_supply ctxAll 3) (invoke (decrease_supply ctxAll 3) sBase)) ∧
    (increase_supply ctxAll 3 sBase).1 =
        .ok (invoke (increase_supply ctxAll 3) sBase) ∧
    (decrease_supply ctxAll 3 (invoke (increase_supply ctxAll 3) sBase)).1 =
        .ok (invoke (decrease_supply ctxAll 3) (invoke (increase_supply ctxAll 3) sBase)) ∧
    (invoke (increase_supply ctxAll 3) (invoke (decrease_supply ctxAll 3) sBase)).tokenSupply
        = sBase.tokenSupply ∧
    (invoke (decrease_supply ctxAll 3) (invoke (increase_supply ctxAll 3) sBase)).tokenSupply
        = sBase.tokenSupply ∧
    posOf (invoke (increase_supply ctxAll 3) (invoke (decrease_supply ctxAll 3) sBase)) 0
        = posOf sBase 0 :=
  ⟨by decide, by decide, by decide, by decide,
   (supply_round_trip.1 ctxAll ctxAll 3 sBase
      (invoke (decrease_supply ctxAll 3) sBase)
      (invoke (increase_supply ctxAll 3) (invoke (decrease_supply ctxAll 3) sBase))
      (by decide) (by decide)).1,
   (supply_round_trip.2 ctxAll ctxAll 3 sBase
      (invoke (increase_supply ctxAll 3) sBase)
      (invoke (decrease_supply ctxAll 3) (invoke (increase_supply ctxAll 3) sBase))
      (by decide) (by decide)).1,
   (supply_round_trip.1 ctxAll ctxAll 3 sBase
      (invoke (decrease_supply ctxAll 3) sBase)
      (invoke (increase_supply ctxAll 3) (invoke (decrease_supply ctxAll 3) sBase))
      (by decide) (by decide)).2 0⟩

/-- C7: after any successful first initialization, a second
`initialize` call — with any arguments — fails with
`AlreadyInitializedError` and leaves every stored configuration field
and `tracked_supply` exactly as they were. -/
theorem initialize_twice_fails (a t b so c p a2 t2 b2 so2 c2 p2 : Address)
    (s s1 : EnvState)
    (h1 : (initialize_ a t b so c p s).1 = .ok s1) :
    (initialize_ a2 t2 b2 so2 c2 p2 s1).1 = .error (.err .AlreadyInitializedError) ∧
    invoke (initialize_ a2 t2 b2 so2 c2 p2) s1 = s1 := by
  obtain ⟨-, hs1⟩ := initialize_ok_inv a t b so c p s s1 h1
  have hinit : s1.initialized = true := by rw [hs1]
  have hrun : initialize_ a2 t2 b2 so2 c2 p2 s1 =
      (.error (.err .AlreadyInitializedError), []) := by
    simp [initialize_, hinit]
  exact ⟨by rw [hrun], invoke_of_error _ _ _ (by rw [hrun])⟩

/-- Witness for C7: initializing `sFresh` succeeds; initializing again
with different arguments fails and changes nothing. -/
theorem initialize_twice_fails_witness :
    (initialize_ 1 2 3 4 5 6 sFresh).1 =
        .ok (invoke (initialize_ 1 2 3 4 5 6) sFresh) ∧
    (initialize_ 7 7 7 7 7 7 (invoke (initialize_ 1 2 3 4 5 6) sFresh)).1 =
        .error (.err .AlreadyInitializedError) ∧
    invoke (initialize_ 7 7 7 7 7 7) (invoke (initialize_ 1 2 3 4 5 6) sFresh) =
        invoke (initialize_ 1 2 3 4 5 6) sFresh :=
  ⟨by decide,
   (initialize_twice_fails 1 2 3 4 5 6 7 7 7 7 7 7 sFresh _ (by decide)).1,
   (initialize_twice_fails 1 2 3 4 5 6 7 7 7 7 7 7 sFresh _ (by decide)).2⟩

/-- C10: `initialize` consults no authorization context at all (its
embedding takes none, because `contract.rs` performs no `require_auth`
in it): whenever the treasury is uninitialized, any caller's
initialization succeeds and installs the caller's choice of admin,
borrower, token, pool, exchange and collateral-asset addresses. -/
theorem initialize_no_auth_installs (a t b so c p : Address) (s : EnvState)
    (h : s.initialized = false) :
    ∃ s', (initialize_ a t b so c p s).1 = .ok s' ∧
      s'.admin = a ∧ s'.token = t ∧ s'.blend = b ∧ s'.soroswap = so ∧
      s'.collateralToken = c ∧ s'.pegkeeper = p ∧
      s'.tokenSupply = 0 ∧ s'.initialized = true := by
  refine ⟨{ s with
      initialized := true
      admin := a
      blend := b
      soroswap := so
      token := t
      collateralToken := c
      tokenSupply := 0
      pegkeeper := p }, ?_, rfl, rfl, rfl, rfl, rfl, rfl, rfl, rfl⟩
  simp [initialize_, h]

/-- Witness for C10: initializing the uninitialized `sFresh` with
arbitrary addresses succeeds without any authorization. -/
theorem initialize_no_auth_installs_witness :
    sFresh.initialized = false ∧
    ∃ s', (initialize_ 1 2 3 4 5 6 sFresh).1 = .ok s' ∧
      s'.admin = 1 ∧ s'.token = 2 ∧ s'.blend = 3 ∧ s'.soroswap = 4 ∧
      s'.collateralToken = 5 ∧ s'.pegkeeper = 6 ∧
      s'.tokenSupply = 0 ∧ s'.initialized = true :=
  ⟨by decide, initialize_no_auth_installs 1 2 3 4 5 6 sFresh (by decide)⟩

/-- C8: `tracked_supply ≥ 0` holds in every reachable state, and in
every reachable state it equals the net of the completed
increase/decrease operations since initialization (so only those two
operations move it; `initialize` zeroes it and the setters and
`flash_loan` leave it alone). -/
theorem tracked_supply_invariant :
    (∀ s, Reachable s → 0 ≤ s.tokenSupply) ∧
    (∀ s n, ReachableNet s n → s.tokenSupply = n) := by
  constructor
  · intro s hs
    induction hs with
    | boot a t b so c p s0 s1 hin hok =>
        obtain ⟨-, hs1⟩ := initialize_ok_inv a t b so c p s0 s1 hok
        rw [hs1]
    | stepSetAdmin ctx a s0 s1 hr hok ih =>
        rw [set_admin_ok_inv ctx a s0 s1 hok]
        exact ih
    | stepSetPegkeeper ctx a s0 s1 hr hok ih =>
        rw [set_pegkeeper_ok_inv ctx a s0 s1 hok]
        exact ih
    | stepSetLoanFee ctx fee s0 s1 hr hok ih =>
        rw [set_loan_fee_ok_inv ctx fee s0 s1 hok]
        exact ih
    | stepIncrease ctx amount s0 s1 hr hok ih =>
        obtain ⟨-, hnn, hts, -⟩ := increase_supply_ok_inv ctx amount s0 s1 hok
        omega
    | stepDecrease ctx amount s0 s1 hr hok ih =>
        obtain ⟨-, hnn, hle, -, hts, -⟩ := decrease_supply_ok_inv ctx amount s0 s1 hok
        omega
    | stepFlash ctx cb amount s0 s1 hr hcb hok ih =>
        obtain ⟨sm, hm, hsm, hts⟩ := flash_loan_ok_inv ctx cb amount s0 s1 hok
        rw [hts]
        exact hcb sm (by omega)
  · intro s n hs
    induction hs with
    | boot a t b so c p s0 s1 hin hok =>
        obtain ⟨-, hs1⟩ := initialize_ok_inv a t b so c p s0 s1 hok
        rw [hs1]
    | stepSetAdmin ctx a s0 s1 n hrn hok ih =>
        rw [set_admin_ok_inv ctx a s0 s1 hok]
        exact ih
    | stepSetPegkeeper ctx a s0 s1 n hrn hok ih =>
        rw [set_pegkeeper_ok_inv ctx a s0 s1 hok]
        exact ih
    | stepSetLoanFee ctx fee s0 s1 n hrn hok ih =>
        rw [set_loan_fee_ok_inv ctx fee s0 s1 hok]
        exact ih
    | stepIncrease ctx amount s0 s1 n hrn hok ih =>
        obtain ⟨-, -, hts, -⟩ := increase_supply_ok_inv ctx amount s0 s1 hok
        omega
    | stepDecrease ctx amount s0 s1 n hrn hok ih =>
        obtain ⟨-, -, -, -, hts, -⟩ := decrease_supply_ok_inv ctx amount s0 s1 hok
        omega
    | stepFlash ctx cb amount s0 s1 n hrn hcb hok ih =>
        obtain ⟨sm, hm, hsm, hts⟩ := flash_loan_ok_inv ctx cb amount s0 s1 hok
        rw [hts, hcb sm]
        omega

/-- Witness for C8: the state just after initialization is reachable
with net 0, and the invariant evaluates there. -/
theorem tracked_supply_invariant_witness :
    0 ≤ (invoke (initialize_ 1 2 3 4 5 6) sFresh).tokenSupply ∧
    (invoke (initialize_ 1 2 3 4 5 6) sFresh).tokenSupply = 0 :=
  ⟨tracked_supply_invariant.1 _
     (Reachable.boot 1 2 3 4 5 6 sFresh _ (by decide) (by decide)),
   tracked_supply_invariant.2 _ 0
     (ReachableNet.boot 1 2 3 4 5 6 sFresh _ (by decide) (by decide))⟩

end Orbit
